import Mathlib

/-!
Verification of the SFDX-Falcon result-propagation and command-execution
subsystem: the command sanitizer/compiler, the `executeSfdxCommand` executor
classification law, the error taxonomy (`SfdxFalconError`, `SfdxCliError`,
`ShellError`) and its rendering.

The embedding is shallow: each TypeScript function of the repository is
translated into a Lean function over explicit data.  JavaScript strings are
modelled as Lean `String`/`List Char`; `null`/`undefined` and untyped values
are modelled with `Option` and a small `JsVal` type.  External collaborators
(the `shelljs` child process, `JSON.parse`, `util.inspect`, `chalk`) are
modelled as parameters or total string functions.  Parts of this repository
that are not in the provided sources (the `SfdxFalconResult` class, the
`detectSalesforceCliError` / `safeParse` utilities, the Action response
plumbing) are modelled from the specification; their doc comments say so.
-/

namespace SfdxFalcon

/-- The single-quote character; written via its code point. -/
def squote : Char := Char.ofNat 39

/-- The backslash character. -/
def bslash : Char := Char.ofNat 92

/-- Whitespace characters removed by JavaScript `String.prototype.trim`
(ASCII subset; the arguments handled here are ASCII). -/
def jsIsSpace (c : Char) : Bool :=
  c = ' ' || c = Char.ofNat 9 || c = Char.ofNat 10 || c = Char.ofNat 13 ||
  c = Char.ofNat 11 || c = Char.ofNat 12

/-- JavaScript `String.prototype.trim` on a character list. -/
def jsTrim (l : List Char) : List Char :=
  ((l.dropWhile jsIsSpace).reverse.dropWhile jsIsSpace).reverse

/-- Membership in the character class `[A-Za-z0-9_\/:=-]` of the regex used by
`sanitizeArgument` (from `executors/sfdx.ts`, line 256). -/
def safeArgChar (c : Char) : Bool :=
  c.isAlpha || c.isDigit || c = '_' || c = '/' || c = ':' || c = '=' || c = '-'

/-- `argument.replace(/'/g, "'\\''")`: every single quote becomes
quote-backslash-quote-quote (from `executors/sfdx.ts`, line 257). -/
def escQuotes : List Char → List Char
  | [] => []
  | c :: rest =>
    if c = squote then squote :: bslash :: squote :: squote :: escQuotes rest
    else c :: escQuotes rest

/-- `argument.replace(/^(?:'')+/g, '')`: remove the maximal leading run of
doubled single quotes (from `executors/sfdx.ts`, line 258). -/
def dropLeadingQuotePairs : List Char → List Char
  | a :: b :: rest =>
    if a = squote ∧ b = squote then dropLeadingQuotePairs rest
    else a :: b :: rest
  | l => l

/-- `argument.replace(/\\'''/g, "\\'")`: every backslash-quote-quote-quote
becomes backslash-quote, scanning left to right without overlap (from
`executors/sfdx.ts`, line 259). -/
def replaceBsq3 : List Char → List Char
  | b :: q1 :: q2 :: q3 :: rest =>
    if b = bslash ∧ q1 = squote ∧ q2 = squote ∧ q3 = squote then
      bslash :: squote :: replaceBsq3 rest
    else
      b :: replaceBsq3 (q1 :: q2 :: q3 :: rest)
  | l => l

/-- `sanitizeArgument` from `executors/sfdx.ts` (lines 250–264), on character
lists: trim, then if any character falls outside `[A-Za-z0-9_\/:=-]`,
single-quote the whole value escaping embedded quotes, de-duplicate a leading
quote-pair run, and collapse escaped-quote triples. -/
def sanitizeArgumentL (arg : List Char) : List Char :=
  let a := jsTrim arg
  if a.any (fun c => !safeArgChar c) then
    replaceBsq3 (dropLeadingQuotePairs (squote :: (escQuotes a ++ [squote])))
  else a

/-- `sanitizeArgument` on `String`. -/
def sanitizeArgument (s : String) : String :=
  String.mk (sanitizeArgumentL s.data)

/-- Membership in the class kept by `sanitizeFlag`s regex
`/[^a-z0-9-]/gim` — the `i` flag makes it case-insensitive, so `A-Z`
survive as well (from `executors/sfdx.ts`, line 282). -/
def flagChar (c : Char) : Bool :=
  c.isAlpha || c.isDigit || c = '-'

/-- `sanitizeFlag` from `executors/sfdx.ts` (lines 276–286): trim, then strip
every character outside `[a-z0-9-]` (case-insensitive). -/
def sanitizeFlag (s : String) : String :=
  String.mk ((jsTrim s.data).filter flagChar)

/-- A value found in the untyped `commandFlags` object.  The call sites in
the repository store booleans and strings. -/
inductive FlagVal where
  | bool (b : Bool)
  | str (s : String)
deriving DecidableEq, Repr

/-- `SfdxCommandDefinition` from `executors/sfdx.ts` (lines 42–50).  The
`commandFlags` object is modelled as an association list in insertion order
(JavaScript `Object.keys` order for string keys); the `observer` handle is an
external UI callback and carries no data relevant to compilation. -/
structure SfdxCommandDefinition where
  command : String
  progressMsg : String
  errorMsg : String
  successMsg : String
  commandArgs : List String
  commandFlags : List (String × FlagVal)
deriving DecidableEq, Repr

/-- JavaScript `toLowerCase` on an ASCII character. -/
def jsLowerChar (c : Char) : Char :=
  if 65 ≤ c.toNat ∧ c.toNat ≤ 90 then Char.ofNat (c.toNat + 32) else c

/-- JavaScript `toUpperCase` on an ASCII character. -/
def jsUpperChar (c : Char) : Char :=
  if 97 ≤ c.toNat ∧ c.toNat ≤ 122 then Char.ofNat (c.toNat - 32) else c

/-- JavaScript `String.prototype.toLowerCase` (ASCII). -/
def jsToLower (s : String) : String := String.mk (s.data.map jsLowerChar)

/-- JavaScript `String.prototype.toUpperCase` (ASCII). -/
def jsToUpper (s : String) : String := String.mk (s.data.map jsUpperChar)

/-- `objectKey.substr(0,5).toUpperCase() === 'FLAG_'`: the key test of the
flag loop in `parseSfdxCommand` (from `executors/sfdx.ts`, line 214). -/
def isFlagKey (k : String) : Bool :=
  jsToUpper (String.mk (k.data.take 5)) = "FLAG_"

/-- The body of the flag loop of `parseSfdxCommand` (from
`executors/sfdx.ts`, lines 211–234): skip keys that do not start with
`FLAG_`; lower-case the remainder of the key; prefix one dash for a
one-character flag and two dashes otherwise; sanitize the dash+name combo; a
boolean value renders as the bare flag, any other value as flag then
sanitized value. -/
def renderFlag (kv : String × FlagVal) : String :=
  if !isFlagKey kv.1 then "" else
  let flag := jsToLower (String.mk (kv.1.data.drop 5))
  let hyphen := if flag.length = 1 then "-" else "--"
  let resolvedFlag := sanitizeFlag (hyphen ++ flag)
  match kv.2 with
  | .bool _ => " " ++ resolvedFlag
  | .str v => " " ++ resolvedFlag ++ " " ++ sanitizeArgument v

/-- `parseSfdxCommand` from `executors/sfdx.ts` (lines 198–238): the base
string `sfdx <command>`, then each positional argument sanitized, then each
recognized flag. -/
def parseSfdxCommand (d : SfdxCommandDefinition) : String :=
  let base := "sfdx " ++ d.command
  let withArgs := d.commandArgs.foldl (fun acc a => acc ++ " " ++ sanitizeArgument a) base
  d.commandFlags.foldl (fun acc kv => acc ++ renderFlag kv) withArgs

/-- A word parser for a POSIX shell: outside single quotes a backslash
escapes the next character, a single quote opens a quoted region in which
every character is literal until the closing quote.  Returns `none` on an
unterminated quote or a trailing backslash.  Used to express what a shell
reads back from a sanitized argument. -/
def posixParseAux : Bool → List Char → Option (List Char)
  | false, [] => some []
  | false, c :: rest =>
    if c = squote then posixParseAux true rest
    else if c = bslash then
      match rest with
      | [] => none
      | d :: rest2 => (posixParseAux false rest2).map (d :: ·)
    else (posixParseAux false rest).map (c :: ·)
  | true, [] => none
  | true, c :: rest =>
    if c = squote then posixParseAux false rest
    else (posixParseAux true rest).map (c :: ·)

/-- Parse one shell word starting outside quotes. -/
def posixParseWord (l : List Char) : Option (List Char) :=
  posixParseAux false l

/-- Flag rendering as the amended claim states it: a flag is emitted only
for a key recognized by the `FLAG_` naming convention; the emitted flag name
is the remainder of the key lower-cased (stripped to flag-safe characters);
a single-character name gets a single leading dash and a multi-character
name a double dash; a boolean value — whether `true` or `false` — renders as
the bare flag with no value; any non-boolean value renders as the flag
followed by its sanitized value. -/
def renderFlagSpec (kv : String × FlagVal) : String :=
  if isFlagKey kv.1 then
    let name := jsToLower (String.mk (kv.1.data.drop 5))
    let dashed := if name.length = 1 then "-" ++ name else "--" ++ name
    let emitted := sanitizeFlag dashed
    match kv.2 with
    | .bool _ => " " ++ emitted
    | .str v => " " ++ emitted ++ " " ++ sanitizeArgument v
  else ""

lemma renderFlag_eq_spec (kv : String × FlagVal) : renderFlag kv = renderFlagSpec kv := by
  obtain ⟨k, v⟩ := kv
  by_cases hk : isFlagKey k = true
  · cases v <;> simp [renderFlag, renderFlagSpec, hk] <;> split <;> rfl
  · rw [Bool.not_eq_true] at hk
    cases v <;> simp [renderFlag, renderFlagSpec, hk]

/-- Helper: `dropWhile` is the identity when no element satisfies the
predicate. -/
lemma dropWhile_eq_self_of_none {p : Char → Bool} :
    ∀ l : List Char, (∀ c ∈ l, p c = false) → l.dropWhile p = l := by
  intro l h
  induction l with
  | nil => rfl
  | cons c rest _ =>
    have hc := h c (List.mem_cons_self c rest)
    simp [List.dropWhile, hc]

/-- A character of the safe argument class is not JavaScript whitespace. -/
lemma safeArgChar_not_space {c : Char} (h : safeArgChar c = true) :
    jsIsSpace c = false := by
  by_contra hcon
  rw [Bool.not_eq_false] at hcon
  simp only [jsIsSpace, Bool.or_eq_true, decide_eq_true_eq] at hcon
  rcases hcon with ((((h1 | h1) | h1) | h1) | h1) | h1 <;> subst h1 <;>
    exact absurd h (by decide)

/-- JavaScript `trim` is the identity on a string of safe characters. -/
lemma jsTrim_eq_self_of_safe (l : List Char) (h : ∀ c ∈ l, safeArgChar c = true) :
    jsTrim l = l := by
  unfold jsTrim
  rw [dropWhile_eq_self_of_none l (fun c hc => safeArgChar_not_space (h c hc)),
      dropWhile_eq_self_of_none l.reverse
        (fun c hc => safeArgChar_not_space (h c (List.mem_reverse.mp hc))),
      List.reverse_reverse]

end SfdxFalcon

namespace SfdxFalcon

/-- C2: For every CommandDefinition, the compiler emits a flag only for keys
recognized by the FLAG_ naming convention; each emitted flag name is
lower-cased, a single-character name gets a single leading dash and a
multi-character name gets a double dash, a boolean value (true or false)
renders as the bare flag with no value, and any non-boolean value renders as
the flag followed by its sanitized value.  (Amended from the original claim,
which promised a value for boolean `false`.) -/
theorem parseSfdxCommand_flag_rendering (d : SfdxCommandDefinition) :
    parseSfdxCommand d =
      d.commandFlags.foldl (fun acc kv => acc ++ renderFlagSpec kv)
        (d.commandArgs.foldl (fun acc a => acc ++ " " ++ sanitizeArgument a)
          ("sfdx " ++ d.command)) := by
  have h : renderFlag = renderFlagSpec := funext renderFlag_eq_spec
  simp [parseSfdxCommand, h]

/-- C2 counterexample: the claim as stated renders a boolean `false` flag
value as the flag followed by its sanitized value, but the code renders any
boolean — `false` included — as the bare flag. -/
theorem parseSfdxCommand_boolean_false_counterexample :
    parseSfdxCommand
        { command := "force:org:delete", progressMsg := "", errorMsg := "",
          successMsg := "", commandArgs := [],
          commandFlags := [("FLAG_JSON", FlagVal.bool false)] }
      = "sfdx force:org:delete --json" ∧
    "sfdx force:org:delete --json"
      ≠ "sfdx force:org:delete --json " ++ sanitizeArgument "false" := by
  decide

/-- C3: `sanitizeArgument` single-quotes an argument containing a space, and
an argument containing an embedded single quote is returned single-quoted
with the quote escaped so that POSIX-shell re-parsing of the result yields
back the original string. -/
theorem sanitizeArgument_quoting :
    sanitizeArgument "a b" = String.mk ([squote] ++ "a b".data ++ [squote]) ∧
    (sanitizeArgument (String.mk ['i', 't', squote, 's'])).data
      = [squote, 'i', 't', squote, bslash, squote, squote, 's', squote] ∧
    posixParseWord (sanitizeArgument (String.mk ['i', 't', squote, 's'])).data
      = some ['i', 't', squote, 's'] := by
  decide

/-- C4: `sanitizeArgument` is the identity on any string whose characters
are all drawn from the class `[A-Za-z0-9_/:=-]`. -/
theorem sanitizeArgument_id_on_safe (s : String)
    (h : ∀ c ∈ s.data, safeArgChar c = true) :
    sanitizeArgument s = s := by
  unfold sanitizeArgument sanitizeArgumentL
  rw [jsTrim_eq_self_of_safe s.data h]
  have hany : s.data.any (fun c => !safeArgChar c) = false := by
    rw [Bool.eq_false_iff]
    intro hcon
    rw [List.any_eq_true] at hcon
    obtain ⟨c, hc, hne⟩ := hcon
    rw [h c hc] at hne
    exact absurd hne (by decide)
  simp only [hany]
  obtain ⟨l⟩ := s
  rfl

/-- Witness for C4 at the concrete safe input `abc/def:g=h-i_j`. -/
theorem sanitizeArgument_id_on_safe_witness :
    sanitizeArgument "abc/def:g=h-i_j" = "abc/def:g=h-i_j" :=
  sanitizeArgument_id_on_safe "abc/def:g=h-i_j" (by decide)

/-- The single-quote character as a one-character string. -/
def sq : String := String.mk [squote]

/-- The newline character. -/
def nlChar : Char := Char.ofNat 10

/-- An untyped JavaScript value, as produced by `JSON.parse` or stored in an
untyped object field. -/
inductive JsVal where
  | undefined
  | null
  | bool (b : Bool)
  | num (n : Int)
  | str (s : String)
  | arr (xs : List JsVal)
  | obj (fields : List (String × JsVal))

/-- JavaScript truthiness of a value. -/
def jsTruthy : JsVal → Bool
  | .undefined => false
  | .null => false
  | .bool b => b
  | .num n => n ≠ 0
  | .str s => s ≠ ""
  | .arr _ => true
  | .obj _ => true

/-- Property access `v.f` on a value that is neither `undefined` nor `null`
(those throw; callers model the throw separately): an object looks the field
up, every other value yields `undefined`. -/
def jsGetField (v : JsVal) (f : String) : JsVal :=
  match v with
  | .obj fields => ((fields.find? (fun kv => kv.1 = f)).map Prod.snd).getD .undefined
  | _ => .undefined

/-- JavaScript `a || b`. -/
def jsOr (a b : JsVal) : JsVal := if jsTruthy a then a else b

/-- Whether a string coerces to a number under JavaScript `Number(s)`:
modelled for the integer literals relevant here — optional whitespace,
optional sign, digits.  The empty (or all-space) string coerces to `0`. -/
def jsNumericString (s : String) : Bool :=
  let t := jsTrim s.data
  t.isEmpty ||
    (match t with
     | c :: rest => (c = '-' || c = '+') && !rest.isEmpty && rest.all Char.isDigit
     | [] => true) ||
    t.all Char.isDigit

/-- JavaScript `isNaN(v)` (i.e. whether `Number(v)` is NaN): `undefined` is
NaN; `null`, booleans and numbers are not; a string is NaN unless numeric; an
array coerces through its string form (modelled: empty array and singleton
numeric array are numbers, everything else NaN); a plain object is NaN. -/
def jsIsNaN : JsVal → Bool
  | .undefined => true
  | .null => false
  | .bool _ => false
  | .num _ => false
  | .str s => !jsNumericString s
  | .arr [] => false
  | .arr [x] => match x with
    | .num _ => false
    | .str s => !jsNumericString s
    | .null => false
    | _ => true
  | .arr (_ :: _ :: _) => true
  | .obj _ => true

/-- String interpolation `${v}` of a JavaScript value (ASCII model; arrays
join their elements with commas, objects print as `[object Object]`). -/
def jsToStr : JsVal → String
  | .undefined => "undefined"
  | .null => "null"
  | .bool b => if b then "true" else "false"
  | .num n => toString n
  | .str s => s
  | .arr xs => String.intercalate "," (xs.map fun x =>
      match x with
      | .undefined => ""
      | .null => ""
      | .bool b => if b then "true" else "false"
      | .num n => toString n
      | .str s => s
      | _ => "")
  | .obj _ => "[object Object]"

/-- Lodash `isEmpty`: `undefined`/`null`, booleans and numbers are empty;
strings, arrays and objects are empty iff they have no elements / no own
enumerable keys. -/
def lodashIsEmpty : JsVal → Bool
  | .undefined => true
  | .null => true
  | .bool _ => true
  | .num _ => true
  | .str s => s.isEmpty
  | .arr xs => xs.isEmpty
  | .obj fields => fields.isEmpty

/-- The `CliErrorDetail` structure built by the `SfdxCliError` constructor
(from `sfdx-falcon-error/index.ts`, lines 29–37); fields hold untyped values
copied from the parsed CLI response. -/
structure CliErrorDetailM where
  name : JsVal
  message : JsVal
  status : JsVal
  actions : List JsVal
  warnings : JsVal
  stack : JsVal
  result : JsVal

/-- The default message used when the parsed CLI error has no `message`. -/
def cliUnknownMsg : String :=
  "Unknown CLI Error (see " ++ sq ++ "cliError.result.rawResult" ++ sq
    ++ " for original CLI response)"

/-- The message used by the catch branch of the `SfdxCliError` constructor. -/
def cliUnparseableMsg : String :=
  "Unparseable CLI Error (see " ++ sq ++ "cliError.result.rawResult" ++ sq
    ++ " for raw error)"

/-- The `try` branch of the `SfdxCliError` constructor (from
`sfdx-falcon-error/index.ts`, lines 558–575), applied to the value returned
by `JSON.parse(stdErrBuffer)`.  Property access on `null` (or `undefined`)
throws in JavaScript, which lands in the catch branch: modelled as `none`. -/
def cliErrorTryBranch (parsedError : JsVal) : Option CliErrorDetailM :=
  match parsedError with
  | .null => none
  | .undefined => none
  | p =>
    let actions0 : List JsVal :=
      match jsGetField p "actions" with
      | .arr xs => xs
      | _ => []
    let actions :=
      if jsTruthy (jsGetField p "action") then actions0 ++ [jsGetField p "action"]
      else actions0
    some {
      name := jsOr (jsGetField p "name") (.str "UnknownCliError"),
      message := jsOr (jsGetField p "message") (.str cliUnknownMsg),
      status :=
        if jsIsNaN (jsGetField p "status") then .num 1 else jsGetField p "status",
      actions := actions,
      warnings := jsOr (jsGetField p "warnings") (.arr []),
      stack := jsOr (jsGetField p "stack") (.str ""),
      result := jsOr (jsGetField p "result") (.obj [("rawResult", p)]) }

/-- The `catch` branch of the `SfdxCliError` constructor (from
`sfdx-falcon-error/index.ts`, lines 577–585). -/
def cliErrorCatchBranch (stdErrBuffer : String) : CliErrorDetailM :=
  { name := .str "UnparseableCliError",
    message := .str cliUnparseableMsg,
    status := .num 999,
    actions := [],
    warnings := .arr [],
    stack := .str cliUnparseableMsg,
    result := .obj [("rawResult", .str stdErrBuffer)] }

/-- The `SfdxCliError` object: the base error fields set through the parent
constructor plus the specialized `cliError` detail. -/
structure SfdxCliErrorM where
  message : String
  name : String
  source : String
  cliError : CliErrorDetailM
  actions : List JsVal

/-- The `SfdxCliError` constructor (from `sfdx-falcon-error/index.ts`, lines
551–599).  `JSON.parse` is external; its outcome is passed in as
`parsed : Option JsVal`, `none` meaning the parse threw. -/
def mkSfdxCliError (parsed : Option JsVal) (stdErrBuffer : String)
    (message : String := "Unknown CLI Error") (source : String := "") :
    SfdxCliErrorM :=
  let cliError :=
    match parsed with
    | none => cliErrorCatchBranch stdErrBuffer
    | some p => (cliErrorTryBranch p).getD (cliErrorCatchBranch stdErrBuffer)
  { message := message ++ ". " ++ jsToStr cliError.message,
    name := "SfdxCliError",
    source := source,
    cliError := cliError,
    actions := if lodashIsEmpty (.arr cliError.actions) then [] else cliError.actions }

/-- `stdErrBuffer.indexOf(c)`-style character search: `-1` when absent. -/
def jsIndexOfCharL : List Char → Char → Int
  | [], _ => -1
  | x :: rest, c =>
    if x = c then 0
    else if jsIndexOfCharL rest c < 0 then -1 else jsIndexOfCharL rest c + 1

/-- `s.substr(0, len)`: a non-positive length yields the empty string. -/
def jsTakeToIdx (l : List Char) (i : Int) : List Char :=
  if i ≤ 0 then [] else l.take i.toNat

/-- `stdErrBuffer.substr(0, stdErrBuffer.indexOf(nl))` from the `ShellError`
constructor (from `sfdx-falcon-error/index.ts`, lines 646 and 649). -/
def jsFirstLineQuirk (s : String) : String :=
  String.mk (jsTakeToIdx s.data (jsIndexOfCharL s.data nlChar))

/-- `typeof buf === 'string' && buf`: the buffer is a string (not `null`)
and non-empty. -/
def strNonempty : Option String → Bool
  | some s => !s.isEmpty
  | none => false

/-- The `ShellErrorDetail` structure (from `sfdx-falcon-error/index.ts`,
lines 63–70); the stdout/stderr buffers may be `null`. -/
structure ShellErrorDetailM where
  code : Int
  command : String
  message : String
  signal : String
  stderr : Option String
  stdout : Option String
deriving DecidableEq, Repr

/-- The `ShellError` object: base error fields plus the `shellError`
detail. -/
structure ShellErrorM where
  message : String
  name : String
  source : String
  shellError : ShellErrorDetailM
deriving DecidableEq, Repr

/-- The `ShellError` constructor (from `sfdx-falcon-error/index.ts`, lines
641–674): when no explicit message is given it falls back to the first line
of stderr, then the first line of stdout, then a generic text with the exit
code and signal. -/
def mkShellError (command : String) (code : Int) (signal : String)
    (stdErrBuffer : Option String) (stdOutBuffer : Option String := none)
    (source : String := "") (message : String := "") : ShellErrorM :=
  let msg :=
    if message ≠ "" then message
    else if strNonempty stdErrBuffer then jsFirstLineQuirk (stdErrBuffer.getD "")
    else if strNonempty stdOutBuffer then jsFirstLineQuirk (stdOutBuffer.getD "")
    else "Unknown Shell Error (code=" ++ toString code ++ ", signal=" ++ signal ++ ")"
  { message := msg,
    name := "ShellError",
    source := source,
    shellError :=
      { command := command, code := code, signal := signal,
        stdout := stdOutBuffer, stderr := stdErrBuffer, message := msg } }

end SfdxFalcon

namespace SfdxFalcon

/-- The default-message rule as the claim states it: the text of the buffer
before its first newline — the empty string when the buffer has no newline at
all. -/
def specFirstLine (s : String) : String :=
  if s.data.any (fun x => x = nlChar) then
    String.mk (s.data.takeWhile (fun x => x ≠ nlChar))
  else ""

/-- The default-message priority as the claim states it: first line of
stderr when stderr is a non-empty string, else first line of stdout when
stdout is a non-empty string, else the generic code/signal text. -/
def specShellMessage (code : Int) (signal : String) (stdErr stdOut : Option String) :
    String :=
  if strNonempty stdErr then specFirstLine (stdErr.getD "")
  else if strNonempty stdOut then specFirstLine (stdOut.getD "")
  else "Unknown Shell Error (code=" ++ toString code ++ ", signal=" ++ signal ++ ")"

lemma jsIndexOfCharL_eq_neg_one {c : Char} :
    ∀ l : List Char, l.any (fun x => x = c) = false → jsIndexOfCharL l c = -1 := by
  intro l
  induction l with
  | nil => intro _; rfl
  | cons x rest ih =>
    intro h
    simp only [List.any_cons, Bool.or_eq_false_iff, decide_eq_false_iff_not] at h
    simp only [jsIndexOfCharL, if_neg h.1]
    rw [ih (by simp only [List.any_eq_false] at h ⊢; exact fun a ha => h.2 a ha)]
    rfl

lemma jsIndexOfCharL_nonneg {c : Char} :
    ∀ l : List Char, l.any (fun x => x = c) = true → 0 ≤ jsIndexOfCharL l c := by
  intro l
  induction l with
  | nil => intro h; simp at h
  | cons x rest ih =>
    intro h
    by_cases hx : x = c
    · simp [jsIndexOfCharL, hx]
    · simp only [List.any_cons, Bool.or_eq_true, decide_eq_true_eq] at h
      rcases h with h | h
      · exact absurd h hx
      · have := ih h
        simp only [jsIndexOfCharL, if_neg hx]
        omega

/-- The `substr(0, indexOf(nl))` idiom computes the text before the first
newline, and the empty string when there is no newline. -/
lemma jsTakeToIdx_indexOf (c : Char) :
    ∀ l : List Char,
      jsTakeToIdx l (jsIndexOfCharL l c)
        = if l.any (fun x => x = c) then l.takeWhile (fun x => x ≠ c) else [] := by
  intro l
  induction l with
  | nil => rfl
  | cons x rest ih =>
    by_cases hx : x = c
    · subst hx
      simp [jsIndexOfCharL, jsTakeToIdx, List.takeWhile_cons]
    · cases hr : rest.any (fun y => y = c) with
      | false =>
        have hidx := jsIndexOfCharL_eq_neg_one rest hr
        simp only [jsIndexOfCharL, if_neg hx, hidx]
        have hall : (x :: rest).any (fun y => y = c) = false := by
          simp only [List.any_cons, Bool.or_eq_false_iff, decide_eq_false_iff_not]
          exact ⟨hx, hr⟩
        simp [jsTakeToIdx, hall]
      | true =>
        have hpos := jsIndexOfCharL_nonneg rest hr
        have hidx : jsIndexOfCharL (x :: rest) c = jsIndexOfCharL rest c + 1 := by
          simp only [jsIndexOfCharL, if_neg hx]
          split
          · omega
          · rfl
        have hall : (x :: rest).any (fun y => y = c) = true := by
          simp [List.any_cons, hr]
        rw [hidx, hall]
        have htake : jsTakeToIdx (x :: rest) (jsIndexOfCharL rest c + 1)
            = x :: jsTakeToIdx rest (jsIndexOfCharL rest c) := by
          have h1 : jsTakeToIdx (x :: rest) (jsIndexOfCharL rest c + 1)
              = (x :: rest).take (jsIndexOfCharL rest c + 1).toNat := by
            unfold jsTakeToIdx
            rw [if_neg (by omega)]
          have h2 : jsTakeToIdx rest (jsIndexOfCharL rest c)
              = rest.take (jsIndexOfCharL rest c).toNat := by
            unfold jsTakeToIdx
            split
            · have hz : (jsIndexOfCharL rest c).toNat = 0 := by omega
              rw [hz, List.take_zero]
            · rfl
          have h3 : (jsIndexOfCharL rest c + 1).toNat
              = (jsIndexOfCharL rest c).toNat + 1 := by omega
          rw [h1, h2, h3, List.take_succ_cons]
        rw [htake, ih, hr]
        simp [List.takeWhile_cons, hx]

/-- `jsFirstLineQuirk` agrees with the claim-level first-line rule. -/
lemma jsFirstLineQuirk_eq_spec (s : String) : jsFirstLineQuirk s = specFirstLine s := by
  unfold jsFirstLineQuirk specFirstLine
  rw [jsTakeToIdx_indexOf nlChar s.data]
  split <;> rfl

/-- C10: When the `ShellError` constructor is given no explicit message, its
message (and the `shellError.message` detail) defaults to the text of
`stdErrBuffer` before its first newline when `stdErrBuffer` is a non-empty
string — the empty string when it has no newline at all — otherwise to the
text of `stdOutBuffer` before its first newline when `stdOutBuffer` is a
non-empty string, otherwise to the generic
`Unknown Shell Error (code=..., signal=...)` text. -/
theorem shellError_default_message (command : String) (code : Int) (signal : String)
    (stdErr stdOut : Option String) (source : String) :
    (mkShellError command code signal stdErr stdOut source "").shellError.message
        = specShellMessage code signal stdErr stdOut ∧
    (mkShellError command code signal stdErr stdOut source "").message
        = specShellMessage code signal stdErr stdOut := by
  unfold mkShellError specShellMessage
  simp only [ne_eq, not_true_eq_false, if_false, jsFirstLineQuirk_eq_spec]
  exact ⟨trivial, trivial⟩

/-- C9: The `SfdxCliError` constructor returns normally for every parse
outcome (its name is always `SfdxCliError`), and when the input is not
parseable JSON the resulting `cliError` has name `UnparseableCliError`,
status `999`, empty `actions` and `warnings` arrays, and the raw input
string preserved unchanged at `cliError.result.rawResult`. -/
theorem sfdxCliError_unparseable (parsed : Option JsVal)
    (raw message source : String) :
    (mkSfdxCliError parsed raw message source).name = "SfdxCliError" ∧
    (mkSfdxCliError none raw message source).cliError.name
        = JsVal.str "UnparseableCliError" ∧
    (mkSfdxCliError none raw message source).cliError.status = JsVal.num 999 ∧
    (mkSfdxCliError none raw message source).cliError.actions = [] ∧
    (mkSfdxCliError none raw message source).cliError.warnings = JsVal.arr [] ∧
    (mkSfdxCliError none raw message source).cliError.result
        = JsVal.obj [("rawResult", JsVal.str raw)] ∧
    jsGetField (mkSfdxCliError none raw message source).cliError.result "rawResult"
        = JsVal.str raw ∧
    (mkSfdxCliError none raw message source).actions = [] := by
  refine ⟨rfl, rfl, rfl, rfl, rfl, rfl, ?_, rfl⟩
  simp [mkSfdxCliError, cliErrorCatchBranch, jsGetField, List.find?]

end SfdxFalcon

namespace SfdxFalcon

/-- The data fields of an `SfdxFalconError` instance set by its constructor
(from `sfdx-falcon-error/index.ts`, lines 80–131).  The language-level stack
trace is captured by the runtime at construction and is carried here as an
opaque string. -/
structure SfeFields where
  name : String
  message : String
  source : String
  resultStack : String
  stack : String
  data : JsVal

/-- An `SfdxFalconError` together with its `cause` chain.  The `rootCause`
walk (lines 202–209) distinguishes three shapes of the `cause` slot:
no cause at all (`undefined`), a cause that lodash `isEmpty` judges empty
(for example a bare runtime `Error`, whose `message`/`stack` own properties
are non-enumerable), and a non-empty error cause. -/
inductive SFE where
  | noCause (fields : SfeFields)
  | emptyCause (fields : SfeFields)
  | withCause (fields : SfeFields) (cause : SFE)

/-- The field record of an error. -/
def SFE.fields : SFE → SfeFields
  | .noCause f => f
  | .emptyCause f => f
  | .withCause f _ => f

/-- Replace the captured stack string (used by `wrap` when it rewrites the
stack of the wrapper it builds). -/
def SFE.setStack : SFE → String → SFE
  | .noCause f, s => .noCause { f with stack := s }
  | .emptyCause f, s => .emptyCause { f with stack := s }
  | .withCause f c, s => .withCause { f with stack := s } c

/-- Replace the `data` property (used by `wrap` for non-`Error` input). -/
def SFE.setData : SFE → JsVal → SFE
  | .noCause f, d => .noCause { f with data := d }
  | .emptyCause f, d => .emptyCause { f with data := d }
  | .withCause f c, d => .withCause { f with data := d } c

/-- The `SfdxFalconError` constructor (from `sfdx-falcon-error/index.ts`,
lines 107–131): defaults the name to `SfdxFalconError` and the source to
`Unhandled Exception`, sets `data` to an empty object, and copies the result
stack from the cause when one is given.  `runtimeStack` is the stack trace
the JavaScript runtime captures at construction. -/
def mkSfdxFalconError (runtimeStack : String) (message : String)
    (name : Option String) (source : Option String) (cause : Option SFE) : SFE :=
  let fields : SfeFields := {
    name := name.getD "SfdxFalconError",
    message := message,
    source := source.getD "Unhandled Exception",
    resultStack := match cause with | some c => c.fields.resultStack | none => "",
    stack := runtimeStack,
    data := .obj [] }
  match cause with
  | some c => .withCause fields c
  | none => .noCause fields

/-- `SfdxFalconError.rootCause` (from `sfdx-falcon-error/index.ts`, lines
202–209): follow the `cause` link while the cause exists and is non-empty. -/
def SFE.rootCause : SFE → SFE
  | .withCause _ c => c.rootCause
  | e => e

/-- Membership of an error in the cause chain of another. -/
inductive SFE.InChain : SFE → SFE → Prop
  | refl (e : SFE) : SFE.InChain e e
  | step (f : SfeFields) (c x : SFE) :
      SFE.InChain x c → SFE.InChain x (SFE.withCause f c)

/-- The possible inputs to `SfdxFalconError.wrap`: an already-structured
`SfdxFalconError`, another `Error` instance, or a non-`Error` value. -/
inductive WrapInput where
  | falconError (e : SFE)
  | plainError (name message stack : String)
  | nonError (v : JsVal)

/-- JavaScript `String.prototype.replace` with a plain string pattern:
replace the first occurrence only. -/
def replaceFirstL : List Char → List Char → List Char → List Char
  | [], _, _ => []
  | x :: rest, pat, repl =>
    if pat.isPrefixOf (x :: rest) then repl ++ (x :: rest).drop pat.length
    else x :: replaceFirstL rest pat repl

/-- `replaceFirst` on `String`. -/
def replaceFirst (s pat repl : String) : String :=
  String.mk (replaceFirstL s.data pat.data repl.data)

/-- `SfdxFalconError.wrap` (from `sfdx-falcon-error/index.ts`, lines
248–271): an `SfdxFalconError` is returned as-is; another `Error` is wrapped
in a fresh `SfdxFalconError` carrying its message/name and a merged stack;
anything else is wrapped generically with the raw value preserved under
`data.unknownObj`. -/
def wrap (runtimeStack : String) (source : Option String) : WrapInput → SFE
  | .falconError e => e
  | .plainError name message stack =>
    let base := mkSfdxFalconError runtimeStack message (some name) source none
    if base.fields.stack ≠ "" then
      let s1 := replaceFirst base.fields.stack (name ++ ": " ++ message) "Outer stack:"
      base.setStack (stack ++ String.mk [nlChar] ++ s1)
    else base
  | .nonError v =>
    let base := mkSfdxFalconError runtimeStack
      "Additional error detail saved to the SfdxFalconError.data Object."
      (some "UnknownError") none none
    base.setData (.obj [("unknownObj", v)])

/-- `wrap` seen as a map on values: its result is an `SfdxFalconError`
instance.  In this immutable embedding, returning a structurally equal value
models returning the identical object. -/
def wrapVal (runtimeStack : String) (source : Option String) (v : WrapInput) :
    WrapInput :=
  .falconError (wrap runtimeStack source v)

end SfdxFalcon

namespace SfdxFalcon

/-- C6: `SfdxFalconError.wrap` is idempotent — wrapping what `wrap` returned
yields the very same value, and wrapping a value that is already an
`SfdxFalconError` returns that value unchanged, never a double wrapper. -/
theorem wrap_idempotent (runtimeStack : String) (source : Option String)
    (v : WrapInput) :
    wrapVal runtimeStack source (wrapVal runtimeStack source v)
        = wrapVal runtimeStack source v ∧
    (∀ e : SFE, wrapVal runtimeStack source (.falconError e) = .falconError e) :=
  ⟨rfl, fun _ => rfl⟩

/-- C7: `rootCause` returns an error that lies on the cause chain and that
has no non-empty cause of its own — by the chain membership it is the
innermost such error: the walk follows `cause` links while the cause exists
and is non-empty, and the returned error either has no cause or has only an
empty cause. -/
theorem rootCause_innermost (e : SFE) :
    SFE.InChain (SFE.rootCause e) e ∧
    ∀ f c, SFE.rootCause e ≠ SFE.withCause f c := by
  induction e with
  | noCause f => exact ⟨SFE.InChain.refl _, fun _ _ h => by cases h⟩
  | emptyCause f => exact ⟨SFE.InChain.refl _, fun _ _ h => by cases h⟩
  | withCause f c ih =>
    refine ⟨?_, ?_⟩
    · have : SFE.rootCause (SFE.withCause f c) = SFE.rootCause c := rfl
      rw [this]
      exact SFE.InChain.step f c _ ih.1
    · intro g d h
      exact ih.2 g d h

end SfdxFalcon

namespace SfdxFalcon

/-- Modelled from the spec: the Result `type` values of the
`SfdxFalconResult` class (its module is not among the provided sources);
spec §3: one of EXECUTOR, ACTION, RECIPE, COMMAND. -/
inductive SfdxFalconResultType where
  | COMMAND | RECIPE | ACTION | EXECUTOR
deriving DecidableEq, Repr

/-- Modelled from the spec: the Result status values; spec §3: drawn from
INITIALIZED, RUNNING, SUCCESS, FAILURE, ERROR. -/
inductive SfdxFalconResultStatus where
  | INITIALIZED | RUNNING | SUCCESS | FAILURE | ERROR
deriving DecidableEq, Repr

/-- `ExecutorResultDetail` from `executors/sfdx.ts` (lines 59–65); the
placeholders start as `null` and are filled in by the close handler. -/
structure ExecutorResultDetail where
  sfdxCommandDef : SfdxCommandDefinition
  sfdxCommandString : Option String
  stdOutParsed : JsVal
  stdOutBuffer : Option String
  stdErrBuffer : Option String

/-- The detail payload carried by an EXECUTOR Result: the command/buffer
record, or — per spec §3, "an Error becomes the `detail` of a FAILURE or
ERROR Result" — the classified error object. -/
inductive ResultDetail where
  | execDetail (d : ExecutorResultDetail)
  | cliErrorDetail (e : SfdxCliErrorM)
  | shellErrorDetail (e : ShellErrorM)

/-- Modelled from the spec: the `SfdxFalconResult` object (its module is not
among the provided sources) — a name, a type, a status and a detail
payload.  Children and timing are not needed by the executor claims. -/
structure SfdxFalconResultM where
  name : String
  resultType : SfdxFalconResultType
  status : SfdxFalconResultStatus
  detail : ResultDetail

/-- Modelled from the spec: `result.success()` marks the Result SUCCESS
(spec §4.2 step 6). -/
def SfdxFalconResultM.success (r : SfdxFalconResultM) : SfdxFalconResultM :=
  { r with status := .SUCCESS }

/-- Modelled from the spec: `result.failure(error)` marks the Result FAILURE
with the classified error as its detail (spec §4.2 step 7 and §3). -/
def SfdxFalconResultM.failure (r : SfdxFalconResultM) (e : SfdxCliErrorM) :
    SfdxFalconResultM :=
  { r with status := .FAILURE, detail := .cliErrorDetail e }

/-- Modelled from the spec: `result.error(error)` marks the Result ERROR
with the shell error as its detail (spec §4.2 step 7 and §3). -/
def SfdxFalconResultM.error (r : SfdxFalconResultM) (e : ShellErrorM) :
    SfdxFalconResultM :=
  { r with status := .ERROR, detail := .shellErrorDetail e }

/-- Modelled from the spec: `safeParse` (its utility module is not among the
provided sources) — parse the buffer as JSON best-effort; on parse failure
carry the raw string instead of failing (spec §4.2 step 6).  The external
`JSON.parse` outcome is the `parseJson` parameter. -/
def safeParse (parseJson : String → Option JsVal) (s : String) : JsVal :=
  (parseJson s).getD (.obj [("unparsed", .str s)])

/-- The settled state of the promise returned by `executeSfdxCommand`. -/
inductive ExecOutcome where
  | resolved (r : SfdxFalconResultM)
  | rejected (r : SfdxFalconResultM)

/-- The close handler of `executeSfdxCommand` (from `executors/sfdx.ts`,
lines 78–184, classification at 136–182): once stdout/stderr are fully
buffered and the child process exits with `(code, signal)`, exit code 0
parses stdout and resolves a SUCCESS Result; a non-zero code whose stdout is
recognized as a structured Salesforce CLI error resolves a FAILURE Result
carrying an `SfdxCliError`; any other non-zero exit rejects an ERROR Result
carrying a `ShellError`.  The external `JSON.parse` and the
`detectSalesforceCliError` utility (not among the provided sources) are
passed in as `parseJson` and `detect`. -/
def closeHandler (parseJson : String → Option JsVal) (detect : String → Bool)
    (cmdDef : SfdxCommandDefinition) (code : Int) (signal : String)
    (stdOutBuffer stdErrBuffer : String) : ExecOutcome :=
  let sfdxCommandString := parseSfdxCommand cmdDef
  let detail0 : ExecutorResultDetail := {
    sfdxCommandDef := cmdDef,
    sfdxCommandString := some sfdxCommandString,
    stdOutParsed := .null,
    stdOutBuffer := some stdOutBuffer,
    stdErrBuffer := some stdErrBuffer }
  let r0 : SfdxFalconResultM := {
    name := "sfdx:executeSfdxCommand",
    resultType := .EXECUTOR,
    status := .RUNNING,
    detail := .execDetail detail0 }
  if code ≠ 0 then
    if detect stdOutBuffer then
      .resolved (r0.failure
        (mkSfdxCliError (parseJson stdOutBuffer) stdOutBuffer cmdDef.errorMsg
          "EXECUTOR:sfdx:executeSfdxCommand"))
    else
      .rejected (r0.error
        (mkShellError sfdxCommandString code signal (some stdErrBuffer)
          (some stdOutBuffer) "EXECUTOR:sfdx:executeSfdxCommand" ""))
  else
    .resolved ({ r0 with
      detail := .execDetail
        { detail0 with stdOutParsed := safeParse parseJson stdOutBuffer } }.success)

/-- Modelled from the spec: the ACTION-level Result produced by one Action
execution (the `SfdxFalconExecutorResponse` / `actionResponse` plumbing is
not among the provided sources); spec §4.4: the child EXECUTOR Result is
folded in as a child of the Action Result. -/
structure ActionResultM where
  status : SfdxFalconResultStatus
  children : List SfdxFalconResultM

/-- `DeleteScratchOrgAction.executeAction` settling logic (from
`delete-scratch-org.ts`, lines 115–125): a resolved executor promise lands
in `.then`, which records the child and marks the Action SUCCESS
(`execSuccess`); a rejected promise lands in `.catch`, which deliberately
suppresses the error — "we might be deleting a scratch org that doesn't
exist" — and also marks the Action SUCCESS. -/
def deleteScratchOrgExecuteAction (out : ExecOutcome) : ActionResultM :=
  match out with
  | .resolved child => { status := .SUCCESS, children := [child] }
  | .rejected child => { status := .SUCCESS, children := [child] }

end SfdxFalcon

namespace SfdxFalcon

/-- C1: `executeSfdxCommand` settles its promise by a three-way law: exit
code 0 resolves with a SUCCESS EXECUTOR Result; a non-zero code whose stdout
is recognized as a structured CLI error resolves with a FAILURE Result whose
detail is the `SfdxCliError` built from stdout; a non-zero code whose stdout
is not recognized rejects with an ERROR Result whose detail is a
`ShellError`; and the promise never rejects in any other case. -/
theorem executeSfdxCommand_three_way_law (parseJson : String → Option JsVal)
    (detect : String → Bool) (cmdDef : SfdxCommandDefinition)
    (code : Int) (signal : String) (stdOut stdErr : String) :
    (code = 0 → ∃ r, closeHandler parseJson detect cmdDef code signal stdOut stdErr
        = .resolved r ∧ r.status = .SUCCESS ∧ r.resultType = .EXECUTOR) ∧
    (code ≠ 0 → detect stdOut = true →
      ∃ r, closeHandler parseJson detect cmdDef code signal stdOut stdErr
          = .resolved r ∧ r.status = .FAILURE ∧
        r.detail = .cliErrorDetail
          (mkSfdxCliError (parseJson stdOut) stdOut cmdDef.errorMsg
            "EXECUTOR:sfdx:executeSfdxCommand")) ∧
    (code ≠ 0 → detect stdOut = false →
      ∃ r, closeHandler parseJson detect cmdDef code signal stdOut stdErr
          = .rejected r ∧ r.status = .ERROR ∧
        r.detail = .shellErrorDetail
          (mkShellError (parseSfdxCommand cmdDef) code signal (some stdErr)
            (some stdOut) "EXECUTOR:sfdx:executeSfdxCommand" "")) ∧
    (∀ r, closeHandler parseJson detect cmdDef code signal stdOut stdErr
        = .rejected r → code ≠ 0 ∧ detect stdOut = false) := by
  refine ⟨?_, ?_, ?_, ?_⟩
  · intro h0
    subst h0
    exact ⟨_, rfl, rfl, rfl⟩
  · intro hnz hdet
    have heq : closeHandler parseJson detect cmdDef code signal stdOut stdErr
        = ExecOutcome.resolved
          (SfdxFalconResultM.failure
            { name := "sfdx:executeSfdxCommand", resultType := .EXECUTOR,
              status := .RUNNING,
              detail := .execDetail
                { sfdxCommandDef := cmdDef,
                  sfdxCommandString := some (parseSfdxCommand cmdDef),
                  stdOutParsed := .null, stdOutBuffer := some stdOut,
                  stdErrBuffer := some stdErr } }
            (mkSfdxCliError (parseJson stdOut) stdOut cmdDef.errorMsg
              "EXECUTOR:sfdx:executeSfdxCommand")) := by
      simp [closeHandler, hnz, hdet]
    exact ⟨_, heq, rfl, rfl⟩
  · intro hnz hdet
    have heq : closeHandler parseJson detect cmdDef code signal stdOut stdErr
        = ExecOutcome.rejected
          (SfdxFalconResultM.error
            { name := "sfdx:executeSfdxCommand", resultType := .EXECUTOR,
              status := .RUNNING,
              detail := .execDetail
                { sfdxCommandDef := cmdDef,
                  sfdxCommandString := some (parseSfdxCommand cmdDef),
                  stdOutParsed := .null, stdOutBuffer := some stdOut,
                  stdErrBuffer := some stdErr } }
            (mkShellError (parseSfdxCommand cmdDef) code signal (some stdErr)
              (some stdOut) "EXECUTOR:sfdx:executeSfdxCommand" "")) := by
      simp [closeHandler, hnz, hdet]
    exact ⟨_, heq, rfl, rfl⟩
  · intro r hrej
    by_cases h0 : code = 0
    · subst h0
      simp [closeHandler] at hrej
    · by_cases hdet : detect stdOut = true
      · simp [closeHandler, h0, hdet] at hrej
      · exact ⟨h0, by simpa using hdet⟩

/-- Witness for C1 at a concrete FAILURE input: exit code 1 with recognized
stdout resolves with a FAILURE Result carrying the `SfdxCliError`. -/
theorem executeSfdxCommand_three_way_law_witness :
    ∃ r, closeHandler (fun _ => none) (fun _ => true)
        { command := "force:org:delete", progressMsg := "", errorMsg := "err",
          successMsg := "", commandArgs := [], commandFlags := [] }
        1 "" "bad json" ""
        = .resolved r ∧ r.status = .FAILURE ∧
      r.detail = .cliErrorDetail
        (mkSfdxCliError none "bad json" "err" "EXECUTOR:sfdx:executeSfdxCommand") :=
  (executeSfdxCommand_three_way_law (fun _ => none) (fun _ => true)
      { command := "force:org:delete", progressMsg := "", errorMsg := "err",
        successMsg := "", commandArgs := [], commandFlags := [] }
      1 "" "bad json" "").2.1 (by decide) rfl

/-- C5: when the delete-scratch-org Action executes and its child Executor
call yields a FAILURE Result (non-zero exit with recognized CLI-error
stdout), the Action-level Result has status SUCCESS while the child FAILURE
is retained as a child — converted, not propagated. -/
theorem deleteScratchOrg_failure_suppressed (parseJson : String → Option JsVal)
    (detect : String → Bool) (cmdDef : SfdxCommandDefinition)
    (code : Int) (signal : String) (stdOut stdErr : String)
    (hnz : code ≠ 0) (hdet : detect stdOut = true) :
    ∃ child,
      closeHandler parseJson detect cmdDef code signal stdOut stdErr
        = .resolved child ∧
      child.status = .FAILURE ∧
      (deleteScratchOrgExecuteAction
        (closeHandler parseJson detect cmdDef code signal stdOut stdErr)).status
        = .SUCCESS ∧
      (deleteScratchOrgExecuteAction
        (closeHandler parseJson detect cmdDef code signal stdOut stdErr)).children
        = [child] := by
  have heq : closeHandler parseJson detect cmdDef code signal stdOut stdErr
      = ExecOutcome.resolved
        (SfdxFalconResultM.failure
          { name := "sfdx:executeSfdxCommand", resultType := .EXECUTOR,
            status := .RUNNING,
            detail := .execDetail
              { sfdxCommandDef := cmdDef,
                sfdxCommandString := some (parseSfdxCommand cmdDef),
                stdOutParsed := .null, stdOutBuffer := some stdOut,
                stdErrBuffer := some stdErr } }
          (mkSfdxCliError (parseJson stdOut) stdOut cmdDef.errorMsg
            "EXECUTOR:sfdx:executeSfdxCommand")) := by
    simp [closeHandler, hnz, hdet]
  exact ⟨_, heq, rfl, by rw [heq]; rfl, by rw [heq]; rfl⟩

/-- Witness for C5 at a concrete input: exit code 1 with recognized stdout. -/
theorem deleteScratchOrg_failure_suppressed_witness :
    ∃ child, closeHandler (fun _ => none) (fun _ => true)
        { command := "force:org:delete", progressMsg := "", errorMsg := "e",
          successMsg := "", commandArgs := [], commandFlags := [] }
        1 "" "out" "err" = .resolved child ∧
      child.status = .FAILURE ∧
      (deleteScratchOrgExecuteAction (closeHandler (fun _ => none)
        (fun _ => true)
        { command := "force:org:delete", progressMsg := "", errorMsg := "e",
          successMsg := "", commandArgs := [], commandFlags := [] }
        1 "" "out" "err")).status = .SUCCESS ∧
      (deleteScratchOrgExecuteAction (closeHandler (fun _ => none)
        (fun _ => true)
        { command := "force:org:delete", progressMsg := "", errorMsg := "e",
          successMsg := "", commandArgs := [], commandFlags := [] }
        1 "" "out" "err")).children = [child] :=
  deleteScratchOrg_failure_suppressed (fun _ => none) (fun _ => true)
    { command := "force:org:delete", progressMsg := "", errorMsg := "e",
      successMsg := "", commandArgs := [], commandFlags := [] }
    1 "" "out" "err" (by decide) rfl

end SfdxFalcon

namespace SfdxFalcon

/-- The inspection depths threaded through the render functions (from
`sfdx-falcon-error/index.ts`, lines 46–54; colors are display-only and play
no part in the rendered text content modelled here). -/
structure RenderOpts where
  childInspectDepth : Int
  detailInspectDepth : Int
  errorInspectDepth : Int

/-- A total model of Node `util.inspect`: the library function never throws
on any value and returns some string form; the exact layout is irrelevant to
the claims, so the plain string coercion stands in for it. -/
def jsInspect (v : JsVal) : String := jsToStr v

/-- Property access `v.f` as used by the renderer, with the JavaScript throw
semantics made explicit: access on `undefined` or `null` raises a
`TypeError`; every other value yields the field (or `undefined`). -/
def jsGetE (v : JsVal) (f : String) : Except String JsVal :=
  match v with
  | .undefined => .error "TypeError"
  | .null => .error "TypeError"
  | w => .ok (jsGetField w f)

/-- The base-object fields that `renderBaseDetail` reads directly off the
error being rendered.  On a plain `Error` the SfdxFalconError-specific
fields (`source`, `resultStack`, `detail`, `data`) are simply `undefined` —
the code casts and reads them regardless. -/
structure BaseFields where
  name : JsVal
  message : JsVal
  actions : JsVal
  source : JsVal
  stack : JsVal
  resultStack : JsVal
  detail : JsVal
  data : JsVal

/-- The shapes of value `renderError` can receive: a non-`Error` value, an
`Error`/`SfdxFalconError` instance, an `SfdxCliError` instance (whose
`cliError` member is carried as an untyped value), or a `ShellError`
instance (likewise with `shellError`). -/
inductive RenderTarget where
  | nonError (v : JsVal)
  | plainErr (base : BaseFields)
  | cliInst (base : BaseFields) (cliErrorProp : JsVal)
  | shellInst (base : BaseFields) (shellErrorProp : JsVal)

/-- `renderBaseDetail` (from `sfdx-falcon-error/index.ts`, lines 287–314):
name and message always; actions, result stack, detail and data only behind
truthiness/`isEmpty` guards; source and stack always (interpolating
`undefined` prints the text `undefined` and cannot throw). -/
def renderBaseDetail (b : BaseFields) (opts : RenderOpts) : String :=
  let out := "\nError Name:    " ++ jsToStr b.name
    ++ "\nError Message: " ++ jsToStr b.message
  let out := if jsTruthy b.actions && !lodashIsEmpty b.actions then
      out ++ "\nSfdxError Actions (Depth " ++ toString opts.childInspectDepth
        ++ "):\n" ++ jsInspect b.actions
    else out
  let out := out ++ "\nError Source:  " ++ jsToStr b.source
    ++ "\nError Stack: \n" ++ jsToStr b.stack
  let out := if jsTruthy b.resultStack && !lodashIsEmpty b.resultStack then
      out ++ "\nResult Stack:\n" ++ jsToStr b.resultStack
    else out
  let out := if jsTruthy b.detail && !lodashIsEmpty b.detail then
      out ++ "\nError Detail:\n" ++ jsInspect b.detail
    else out
  let out := if jsTruthy b.data && !lodashIsEmpty b.data then
      out ++ "\nError Data (Depth " ++ toString opts.errorInspectDepth
        ++ "):\n" ++ jsInspect b.data
    else out
  out

/-- `renderUnknownDetail` (from `sfdx-falcon-error/index.ts`, lines
467–474). -/
def renderUnknownDetail (v : JsVal) (opts : RenderOpts) : String :=
  "\nError Name:    UNKNOWN"
    ++ "\nError Message: The object provided is not of type " ++ sq ++ "Error" ++ sq
    ++ "\nError Stack:   Not Available"
    ++ "\nRaw Object: (Depth " ++ toString opts.childInspectDepth ++ ")\n"
    ++ jsInspect v

/-- `renderSfdxCliErrorDetail` (from `sfdx-falcon-error/index.ts`, lines
382–413): every optional `cliError` field is read through `jsGetE` and
guarded — `isEmpty` for name/message/status/warnings, `Array.isArray` for
the actions loop, `isEmpty` plus a depth threshold for stack and raw
result. -/
def renderSfdxCliErrorDetail (cli : JsVal) (opts : RenderOpts) :
    Except String String := do
  let name ← jsGetE cli "name"
  let o1 := if !lodashIsEmpty name then
    "\nCLI Error Name:    " ++ jsToStr name else ""
  let message ← jsGetE cli "message"
  let o2 := if !lodashIsEmpty message then
    "\nCLI Error Message: " ++ jsToStr message else ""
  let status ← jsGetE cli "status"
  let o3 := if !lodashIsEmpty status then
    "\nCLI Error Status:  " ++ jsToStr status else ""
  let actions ← jsGetE cli "actions"
  let o4 := match actions with
    | .arr xs => xs.foldl (fun acc a => acc ++ "\n" ++ jsToStr a) "\nCLI Error Actions:"
    | _ => ""
  let warnings ← jsGetE cli "warnings"
  let o5 := if !lodashIsEmpty warnings then
    "\nCLI Error Warnings:\n" ++ jsInspect warnings else ""
  let stack ← jsGetE cli "stack"
  let o6 := if !lodashIsEmpty stack ∧ 5 ≤ opts.childInspectDepth then
    "\nCLI Error Stack:   \n" ++ jsToStr stack else ""
  let result ← jsGetE cli "result"
  let o7 := if !lodashIsEmpty result ∧ 2 ≤ opts.childInspectDepth then
    "\nCLI Error Raw Result: (Depth 5)\n" ++ jsInspect result else ""
  pure (o1 ++ o2 ++ o3 ++ o4 ++ o5 ++ o6 ++ o7)

/-- `renderShellErrorDetail` (from `sfdx-falcon-error/index.ts`, lines
429–450): every optional `shellError` field is read through `jsGetE` and
guarded — `isEmpty` for command/signal/message/stderr/stdout and plain
truthiness for the numeric exit code. -/
def renderShellErrorDetail (sh : JsVal) (_opts : RenderOpts) :
    Except String String := do
  let command ← jsGetE sh "command"
  let o1 := if !lodashIsEmpty command then
    "\nShellError Command: " ++ jsToStr command else ""
  let code ← jsGetE sh "code"
  let o2 := if jsTruthy code then
    "\nShellError Code:    " ++ jsToStr code else ""
  let signal ← jsGetE sh "signal"
  let o3 := if !lodashIsEmpty signal then
    "\nShellError Signal:  " ++ jsToStr signal else ""
  let message ← jsGetE sh "message"
  let o4 := if !lodashIsEmpty message then
    "\nShellError Message: " ++ jsToStr message else ""
  let stderr ← jsGetE sh "stderr"
  let o5 := if !lodashIsEmpty stderr then
    "\nShellError StdErr:\n" ++ jsToStr stderr else ""
  let stdout ← jsGetE sh "stdout"
  let o6 := if !lodashIsEmpty stdout then
    "\nShellError StdOut:\n" ++ jsToStr stdout else ""
  pure (o1 ++ o2 ++ o3 ++ o4 ++ o5 ++ o6)

/-- `renderError` (from `sfdx-falcon-error/index.ts`, lines 334–366):
non-`Error` input renders as UNKNOWN; otherwise the base detail is rendered,
extended for `SfdxCliError` / `ShellError` instances.  The `|| default`
fallbacks on the depth arguments are modelled by the zero checks. -/
def renderError (t : RenderTarget)
    (childInspectDepth detailInspectDepth errorInspectDepth : Int) :
    Except String String :=
  let opts : RenderOpts := {
    childInspectDepth := if childInspectDepth = 0 then 2 else childInspectDepth,
    detailInspectDepth := if detailInspectDepth = 0 then 4 else detailInspectDepth,
    errorInspectDepth := if errorInspectDepth = 0 then 1 else errorInspectDepth }
  match t with
  | .nonError v => .ok (renderUnknownDetail v opts)
  | .plainErr b => .ok (renderBaseDetail b opts)
  | .cliInst b cli =>
    (renderSfdxCliErrorDetail cli opts).map (fun extra => renderBaseDetail b opts ++ extra)
  | .shellInst b sh =>
    (renderShellErrorDetail sh opts).map (fun extra => renderBaseDetail b opts ++ extra)

/-- The class invariant of the render targets: a real `SfdxCliError` /
`ShellError` instance always carries its `cliError` / `shellError` member as
an object (both constructor branches assign it), with any of its fields
possibly absent. -/
def validRenderTarget : RenderTarget → Prop
  | .cliInst _ cli => ∃ fs, cli = JsVal.obj fs
  | .shellInst _ sh => ∃ fs, sh = JsVal.obj fs
  | _ => True

end SfdxFalcon

namespace SfdxFalcon

/-- C8: for every input value — a non-`Error` value, an `Error`, or a
CliError/ShellError instance with absent or empty optional fields —
`renderError` returns a string and never throws: every property access in
the rendering path is guarded, so the explicit-throw embedding always
produces `Except.ok`. -/
theorem renderError_total (t : RenderTarget)
    (childInspectDepth detailInspectDepth errorInspectDepth : Int)
    (h : validRenderTarget t) :
    ∃ s, renderError t childInspectDepth detailInspectDepth errorInspectDepth
      = Except.ok s := by
  cases t with
  | nonError v => exact ⟨_, rfl⟩
  | plainErr b => exact ⟨_, rfl⟩
  | cliInst b cli =>
    obtain ⟨fs, rfl⟩ := h
    exact ⟨_, rfl⟩
  | shellInst b sh =>
    obtain ⟨fs, rfl⟩ := h
    exact ⟨_, rfl⟩

/-- Witness for C8 at a concrete malformed-but-valid target: an
`SfdxCliError` instance whose base fields are all `undefined` and whose
`cliError` object has no fields at all. -/
theorem renderError_total_witness :
    ∃ s, renderError (RenderTarget.cliInst
        { name := .undefined, message := .undefined, actions := .undefined, source := .undefined,
          stack := .undefined, resultStack := .undefined, detail := .undefined, data := .undefined }
        (JsVal.obj [])) 2 4 1 = Except.ok s :=
  renderError_total (RenderTarget.cliInst
      { name := .undefined, message := .undefined, actions := .undefined, source := .undefined,
        stack := .undefined, resultStack := .undefined, detail := .undefined, data := .undefined }
      (JsVal.obj [])) 2 4 1 ⟨[], rfl⟩

end SfdxFalcon
